import Mathlib

/-!
Verification development for the folder sync-and-audit tool (`Box_sync.py`).

The program reconciles two directory trees.  Its core is `sync_and_verify`,
which walks a persisted inventory (one row per relative path), probes the two
trees, copies files whose `Date Copied to Folder 1` cell is unset, verifies
already-copied files by size and checksum, tallies four counters, and appends
an audit section to the report artifact.  `backup_excel` snapshots the report
before the run and prunes old backups by modification time.

Shallow embedding conventions:
- A filesystem is an association list from path strings to `FsFile` values.
  A file carries the result of an `os.path.getsize` probe (`none` models the
  call raising) and the result of opening and reading it
  (`ReadResult.ioError msg` models an `IOError` whose text is `msg`).
- `shutil.copy2` may raise; the outcome is supplied by the oracle
  `World.copyFail src dst` (`some msg` models an exception with text `msg`).
  On success it duplicates the source's content and metadata at the
  destination, which we model by storing the source's `FsFile` there.
- The SHA-256 hex digest of `hashlib` is treated as an abstract parameter
  `World.hashHex`; equal byte contents give equal digests by congruence.
- All `datetime.now()` readings of one run are modelled by the single run
  timestamp string `World.now`; only its presence or absence in the
  `Date Copied to Folder 1` cell influences control flow.
- `os.path.join(a, b)` is modelled as `a ++ "/" ++ b`.
-/

/-- Outcome of opening and reading a file: its bytes, or the message of the
exception the read raised. -/
inductive ReadResult where
  | ok (bytes : List Nat)
  | ioError (msg : String)
deriving DecidableEq, Repr

/-- The observable state of one file on disk: the result of a size probe
(`os.path.getsize`, `none` when it raises) and the result of reading the
bytes (`ReadResult.ioError msg` when `open`/`read` raises with message `msg`). -/
structure FsFile where
  sizeProbe : Option Nat
  content : ReadResult
deriving DecidableEq, Repr

/-- A filesystem: association list from absolute path to file state.
Earlier entries shadow later ones. -/
abbrev Fs := List (String × FsFile)

/-- Path lookup (`os.path.exists` / `open` resolution). -/
def fsGet : Fs → String → Option FsFile
  | [], _ => none
  | (q, f) :: rest, p => if q = p then some f else fsGet rest p

/-- Write a file at a path (shadowing any previous entry). -/
def fsSet (fs : Fs) (p : String) (f : FsFile) : Fs := (p, f) :: fs

/-- `file_exists(path)` from the source: `os.path.exists`. -/
def file_exists (fs : Fs) (p : String) : Bool := (fsGet fs p).isSome

/-- Size of a looked-up file, as `get_file_size` reports it: `None` when the
file is absent (the `os.path.getsize` call raises and is caught) or when the
probe itself fails. -/
def sizeOfEntry : Option FsFile → Option Nat
  | none => none
  | some f => f.sizeProbe

/-- `get_file_size(file_path)` from the source: `os.path.getsize` wrapped in
`try`/`except` returning `None` on failure. -/
def get_file_size (fs : Fs) (p : String) : Option Nat := sizeOfEntry (fsGet fs p)

/-- Message of the exception raised by `open` on a missing path. -/
def fileNotFoundMsg (p : String) : String :=
  "[Errno 2] No such file or directory: " ++ p

/-- Checksum of a looked-up file, as `compute_checksum` reports it: the hex
digest of the bytes on success, otherwise the string `"ERROR: <message>"`.
The function never raises: every exception is caught and rendered. -/
def checksumOfEntry (hashHex : List Nat → String) : Option FsFile → String
  | none => "ERROR: " ++ ""
  | some f =>
    match f.content with
    | ReadResult.ok bytes => hashHex bytes
    | ReadResult.ioError msg => "ERROR: " ++ msg

/-- Run-wide inputs of `sync_and_verify` that are not the filesystem:
the destination root (`folder1`), the force-recopy flag, the run timestamp,
the copy-failure oracle for `shutil.copy2`/`os.makedirs`, and the abstract
SHA-256 hex digest. -/
structure World where
  folder1 : String
  forceRecopy : Bool
  now : String
  copyFail : String → String → Option String
  hashHex : List Nat → String

/-- `compute_checksum(file_path)` from the source, against a filesystem:
streams the file through the hash on success and returns the hex digest;
on any failure returns `"ERROR: <message>"` instead of raising. -/
def compute_checksum (w : World) (fs : Fs) (p : String) : String :=
  match fsGet fs p with
  | none => "ERROR: " ++ fileNotFoundMsg p
  | some f => checksumOfEntry w.hashHex (some f)

/-- One row of the primary table: `Relative Path`, `Source Path`,
`Date Copied to Folder 1` (`none` models `NaT`), `Exists in Folder 1`,
`Exists in Folder 2`. -/
structure FileRecord where
  relativePath : String
  sourcePath : String
  dateCopied : Option String
  existsInFolder1 : Bool
  existsInFolder2 : Bool
deriving DecidableEq, Repr

/-- `dest_path = os.path.join(folder1, relative_path)`. -/
def dstPath (w : World) (r : FileRecord) : String :=
  w.folder1 ++ "/" ++ r.relativePath

/-- An error-log line: `f"[{datetime.now()}] {text}"`. -/
def logLine (now text : String) : String := "[" ++ now ++ "] " ++ text

/-- Result of the copy phase of one loop iteration (lines 105-117):
the possibly-updated row, the file now at the destination when the copy
succeeded, the status after this phase, the `copied_files` increment, and
the error-log lines it appended. -/
structure CopyOut where
  row : FileRecord
  newDst : Option FsFile
  status : String
  dCopied : Nat
  errors : List String
deriving DecidableEq, Repr

/-- The copy phase: if `Date Copied to Folder 1` is `NaT`, attempt
`shutil.copy2`; on success stamp the date, count the copy and set status
`Copied`; on failure set status `Error copying: <msg>` and log it.  If the
date is already set, status becomes `Already Copied`. -/
def copyPhase (w : World) (src dst : String) (sf : FsFile) (r2 : FileRecord) : CopyOut :=
  if r2.dateCopied.isNone then
    match w.copyFail src dst with
    | none =>
      { row := { r2 with dateCopied := some w.now }, newDst := some sf,
        status := "Copied", dCopied := 1, errors := [] }
    | some msg =>
      { row := r2, newDst := none, status := "Error copying: " ++ msg, dCopied := 0,
        errors := [logLine w.now ("Error copying: " ++ msg ++ " - " ++ r2.relativePath)] }
  else
    { row := r2, newDst := none, status := "Already Copied", dCopied := 0, errors := [] }

/-- Result of the verification phase of one loop iteration (lines 119-135):
final status, `verified_files` and `mismatched_files` increments, and the
number of `compute_checksum` invocations (call-count instrumentation). -/
structure VerifyOut where
  status : String
  dVerified : Nat
  dMismatched : Nat
  checksumCalls : Nat
deriving DecidableEq, Repr

/-- The verification phase: runs only when the destination now exists.
Differing sizes short-circuit to `Size Mismatch` without hashing; equal
sizes hash both sides; equal digests count as verified, keeping status
`Copied` when the file was copied this pass. -/
def verifyPhase (hashHex : List Nat → String) (srcF3 dstF3 : Option FsFile)
    (st3 : String) : VerifyOut :=
  match dstF3 with
  | none => { status := st3, dVerified := 0, dMismatched := 0, checksumCalls := 0 }
  | some _ =>
    if sizeOfEntry srcF3 ≠ sizeOfEntry dstF3 then
      { status := "Size Mismatch", dVerified := 0, dMismatched := 1, checksumCalls := 0 }
    else
      if checksumOfEntry hashHex srcF3 ≠ checksumOfEntry hashHex dstF3 then
        { status := "Checksum Mismatch", dVerified := 0, dMismatched := 1, checksumCalls := 2 }
      else
        { status := if st3 ≠ "Copied" then "Verified" else st3,
          dVerified := 1, dMismatched := 0, checksumCalls := 2 }

/-- Everything one loop iteration produces: the written-back row, the file
placed at the destination by a successful copy (`none` otherwise), the four
counter increments, the final status recorded in the audit, the error-log
lines, and the checksum call count. -/
structure StepOut where
  row : FileRecord
  newDst : Option FsFile
  dCopied : Nat
  dVerified : Nat
  dMismatched : Nat
  dMissing : Nat
  status : String
  errors : List String
  checksumCalls : Nat
deriving DecidableEq, Repr

/-- The destination lookup after the copy phase: a successful copy placed
`f` at `dest_path`; otherwise the pre-loop lookup stands. -/
def postDstF (dstF newDst : Option FsFile) : Option FsFile :=
  match newDst with
  | some f => some f
  | none => dstF

/-- The source lookup after the copy phase: unchanged (`some sf`), except
that a successful copy also shadows the source lookup when `dest_path`
equals the source path. -/
def postSrcF (src dst : String) (sf : FsFile) (newDst : Option FsFile) : Option FsFile :=
  match newDst with
  | some f => if dst = src then some f else some sf
  | none => some sf

/-- The `exists2` half of the iteration (lines 102-135): optional clearing of
the date under force-recopy, the copy phase, then verification against the
post-copy lookups. -/
def stepPresent (w : World) (src dst : String) (r1 : FileRecord) (sf : FsFile)
    (dstF : Option FsFile) : StepOut :=
  let r2 := if !dstF.isSome && w.forceRecopy then { r1 with dateCopied := none } else r1
  let c := copyPhase w src dst sf r2
  let v := verifyPhase w.hashHex (postSrcF src dst sf c.newDst) (postDstF dstF c.newDst) c.status
  { row := c.row, newDst := c.newDst, dCopied := c.dCopied, dVerified := v.dVerified,
    dMismatched := v.dMismatched, dMissing := 0, status := v.status,
    errors := c.errors, checksumCalls := v.checksumCalls }

/-- One full loop iteration over a row, as a function of the two path
lookups.  When the source file is absent, the first branch (lines 98-101)
sets `Missing in Folder 2` and counts a miss, and the trailing `else`
(lines 136-139) then overwrites the status with `Missing in Folder 1` and
counts a second miss; both error lines are logged. -/
def stepCore (w : World) (r : FileRecord) (srcF dstF : Option FsFile) : StepOut :=
  let r1 := { r with existsInFolder1 := dstF.isSome, existsInFolder2 := srcF.isSome }
  match srcF with
  | none =>
    { row := r1, newDst := none, dCopied := 0, dVerified := 0, dMismatched := 0,
      dMissing := 2, status := "Missing in Folder 1",
      errors := [logLine w.now ("Missing in Folder 2 - " ++ r.relativePath),
                 logLine w.now ("Missing in Folder 1 - " ++ r.relativePath)],
      checksumCalls := 0 }
  | some sf => stepPresent w r.sourcePath (dstPath w r) r1 sf dstF

/-- One loop iteration against a filesystem. -/
def step (w : World) (fs : Fs) (r : FileRecord) : StepOut :=
  stepCore w r (fsGet fs r.sourcePath) (fsGet fs (dstPath w r))

/-- The filesystem after one loop iteration: a successful copy writes the
copied file at `dest_path`; everything else leaves the disk unchanged. -/
def stepFs (w : World) (fs : Fs) (r : FileRecord) : Fs :=
  match (step w fs r).newDst with
  | some f => fsSet fs (dstPath w r) f
  | none => fs

/-- One row of an audit section: `Timestamp`, `Relative Path`, `Status`. -/
structure AuditRow where
  timestamp : String
  relativePath : String
  status : String
deriving DecidableEq, Repr

/-- Aggregate output of a run: the four counters, the written-back rows (the
saved primary table), the audit rows, the error log, the recorded
`(current, total)` progress calls, the status-callback messages, the final
filesystem, and the total checksum call count. -/
structure RunOut where
  copied : Nat
  verified : Nat
  mismatched : Nat
  missing : Nat
  records : List FileRecord
  audit : List AuditRow
  errors : List String
  progress : List (Nat × Nat)
  statusMsgs : List String
  fs : Fs
  checksumCalls : Nat
deriving DecidableEq, Repr

/-- The per-row loop of `sync_and_verify` (lines 85-147): rows processed in
order, filesystem threaded left to right, progress called with
`(index + 1, total_files)` after every row regardless of outcome. -/
def runRecs (w : World) (total : Nat) (fs : Fs) (i : Nat) : List FileRecord → RunOut
  | [] =>
    { copied := 0, verified := 0, mismatched := 0, missing := 0, records := [],
      audit := [], errors := [], progress := [], statusMsgs := [], fs := fs,
      checksumCalls := 0 }
  | r :: rest =>
    let o := step w fs r
    let t := runRecs w total (stepFs w fs r) (i + 1) rest
    { copied := o.dCopied + t.copied, verified := o.dVerified + t.verified,
      mismatched := o.dMismatched + t.mismatched, missing := o.dMissing + t.missing,
      records := o.row :: t.records,
      audit := { timestamp := w.now, relativePath := r.relativePath, status := o.status } :: t.audit,
      errors := o.errors ++ t.errors,
      progress := (i + 1, total) :: t.progress,
      statusMsgs := ("Processing: " ++ r.relativePath) :: t.statusMsgs,
      fs := t.fs, checksumCalls := o.checksumCalls + t.checksumCalls }

/-- First-run bootstrap (lines 64-77): one row per file found walking
folder 2, pairs of `(relative_path, full_path)`, with no copy date, not yet
probed in folder 1, and present in folder 2. -/
def bootstrapRecords (walk : List (String × String)) : List FileRecord :=
  walk.map (fun pr =>
    { relativePath := pr.1, sourcePath := pr.2, dateCopied := none,
      existsInFolder1 := false, existsInFolder2 := true })

/-- `sync_and_verify` (lines 55-172): load the persisted primary table when
the report exists (`reportMain = some rows`), otherwise bootstrap from the
walk of folder 2; then run the per-row loop.  The returned `RunOut` carries
the tuple `(copied, verified, mismatched, missing, error_log_entries)` the
source returns, plus the saved table, audit rows and callback traces. -/
def sync_and_verify (w : World) (fs : Fs) (reportMain : Option (List FileRecord))
    (walk : List (String × String)) : RunOut :=
  let df := match reportMain with
    | some recs => recs
    | none => bootstrapRecords walk
  runRecs w df.length fs 0 df

/-- One entry of the report's directory: modification time (`os.path.getmtime`)
and raw bytes.  `shutil.copy2` duplicates both (content plus metadata). -/
structure DirFile where
  mtime : Nat
  bytes : List Nat
deriving DecidableEq, Repr

/-- The directory holding the report and its backups: association list from
file name to file, in `os.listdir` order. -/
abbrev Dir := List (String × DirFile)

/-- Name lookup in the report directory. -/
def dirGet : Dir → String → Option DirFile
  | [], _ => none
  | (q, f) :: rest, p => if q = p then some f else dirGet rest p

/-- Write a file into the report directory: overwrite the entry in place when
the name exists, otherwise append a new entry. -/
def dirSet (d : Dir) (name : String) (f : DirFile) : Dir :=
  if (dirGet d name).isSome then
    d.map (fun e => if e.1 = name then (name, f) else e)
  else d ++ [(name, f)]

/-- `report_path.replace(".xlsx", r)` as the source uses it: the report name
in this program is `missing_files_report.xlsx`, where `.xlsx` occurs exactly
once, as the 5-character suffix, so the replacement amounts to swapping that
suffix for `r`. -/
def replaceXlsx (name r : String) : String :=
  String.mk (name.data.take (name.data.length - 5)) ++ r

/-- The backup naming pattern of `cleanup_old_backups`:
`f.startswith(base_name + "_backup_") and f.endswith(".xlsx")`. -/
def isBackupName (baseName name : String) : Bool :=
  (baseName ++ "_backup_").data.isPrefixOf name.data &&
    ".xlsx".data.isSuffixOf name.data

/-- Ordering used to prune backups: `sorted(key=os.path.getmtime, reverse=True)`
puts larger modification times first. -/
def newerFirst (a b : String × DirFile) : Prop := b.2.mtime ≤ a.2.mtime

instance : DecidableRel newerFirst := fun a b => Nat.decLe b.2.mtime a.2.mtime

instance : IsTotal (String × DirFile) newerFirst :=
  ⟨fun a b => Nat.le_total b.2.mtime a.2.mtime⟩

instance : IsTrans (String × DirFile) newerFirst :=
  ⟨fun _ _ _ h1 h2 => Nat.le_trans h2 h1⟩

/-- `cleanup_old_backups(report_path, keep_last)` (lines 34-46): list the
files matching the backup pattern for this report, sort them newest first by
modification time, and try to delete every one beyond the first `keep_last`;
a failed deletion leaves the file in place and is reported, not raised.
Returns the directory afterwards and the failure messages printed. -/
def cleanup_old_backups (delFail : String → Bool) (dir : Dir) (reportName : String)
    (keepLast : Nat) : Dir × List String :=
  let baseName := replaceXlsx reportName ""
  let backups := List.insertionSort newerFirst
    (dir.filter (fun e => isBackupName baseName e.1))
  let toDelete := backups.drop keepLast
  let removed := (toDelete.filter (fun e => !delFail e.1)).map (fun e => e.1)
  (dir.filter (fun e => !(removed.contains e.1)),
   (toDelete.filter (fun e => delFail e.1)).map
     (fun e => "Failed to delete old backup: " ++ e.1))

/-- `backup_excel(report_path)` (lines 48-53): when the report exists, copy
it byte-for-byte with metadata (`shutil.copy2`) to a sibling name embedding
the run timestamp, then prune old backups keeping the last 7. -/
def backup_excel (delFail : String → Bool) (ts : String) (dir : Dir)
    (reportName : String) : Dir × List String :=
  match dirGet dir reportName with
  | none => (dir, [])
  | some f =>
    let backupName := replaceXlsx reportName ("_backup_" ++ ts ++ ".xlsx")
    cleanup_old_backups delFail (dirSet dir backupName f) reportName 7

/-- A spreadsheet cell value as openpyxl sees it after `df.to_excel`:
strings stay strings, pandas booleans become booleans, `NaT` becomes an
empty cell. -/
inductive CellVal where
  | str (s : String)
  | boolean (b : Bool)
  | empty
deriving DecidableEq, Repr

/-- One data row of the saved primary table, in column order
`Relative Path, Source Path, Date Copied to Folder 1, Exists in Folder 1,
Exists in Folder 2`. -/
def rowCells (r : FileRecord) : List CellVal :=
  [CellVal.str r.relativePath, CellVal.str r.sourcePath,
   (match r.dateCopied with | some d => CellVal.str d | none => CellVal.empty),
   CellVal.boolean r.existsInFolder1, CellVal.boolean r.existsInFolder2]

/-- `main_sheet.max_column` for the five-column primary table. -/
def mainSheetMaxColumn : Nat := 5

/-- The status strings the highlighting pass looks for (line 164). -/
def problemStatuses : List String :=
  ["Missing in Folder 1", "Missing in Folder 2", "Size Mismatch", "Checksum Mismatch"]

/-- `status_cell.value in [...]`: only a string cell can equal one of the
status strings; booleans, dates and empty cells compare unequal. -/
def cellIsProblem : CellVal → Bool
  | CellVal.str s => problemStatuses.contains s
  | _ => false

/-- The highlighting decision of lines 162-166 for one data row: the code
reads `row[main_sheet.max_column - 3]` (the third cell, the
`Date Copied to Folder 1` column) and red-fills the row when that cell's
value is one of the four status strings. -/
def rowHighlighted (r : FileRecord) : Bool :=
  match (rowCells r).get? (mainSheetMaxColumn - 3) with
  | some c => cellIsProblem c
  | none => false

/-! ## Basic lemmas about the filesystem and one loop iteration -/

theorem fsGet_fsSet (fs : Fs) (p : String) (f : FsFile) (q : String) :
    fsGet (fsSet fs p f) q = if p = q then some f else fsGet fs q := rfl

theorem step_row_relativePath (w : World) (fs : Fs) (r : FileRecord) :
    (step w fs r).row.relativePath = r.relativePath := by
  cases h : fsGet fs r.sourcePath with
  | none => simp [step, stepCore, h]
  | some sf =>
    simp only [step, stepCore, h, stepPresent, copyPhase]
    repeat' split
    all_goals rfl

theorem step_row_sourcePath (w : World) (fs : Fs) (r : FileRecord) :
    (step w fs r).row.sourcePath = r.sourcePath := by
  cases h : fsGet fs r.sourcePath with
  | none => simp [step, stepCore, h]
  | some sf =>
    simp only [step, stepCore, h, stepPresent, copyPhase]
    repeat' split
    all_goals rfl

theorem errorStatus_ne_missing1 (m : String) :
    "Error copying: " ++ m ≠ "Missing in Folder 1" := by
  intro h
  have h2 : "Error copying: ".data ++ m.data = "Missing in Folder 1".data := by
    rw [← String.data_append, h]
  have h3 : "Error copying: ".data = 'E' :: "rror copying: ".data := by decide
  have h4 : "Missing in Folder 1".data = 'M' :: "issing in Folder 1".data := by decide
  rw [h3, h4, List.cons_append] at h2
  injection h2 with h5 _
  exact absurd h5 (by decide)

/-- When the source file is absent, the iteration takes the first branch and
then the trailing `else`: final status `Missing in Folder 1`, two missing
increments, two error lines, nothing copied or verified, no disk write. -/
theorem step_missing_src (w : World) (fs : Fs) (r : FileRecord)
    (h : fsGet fs r.sourcePath = none) :
    (step w fs r).status = "Missing in Folder 1" ∧ (step w fs r).dMissing = 2 ∧
    (step w fs r).dCopied = 0 ∧ (step w fs r).dVerified = 0 ∧
    (step w fs r).dMismatched = 0 ∧ (step w fs r).newDst = none ∧
    (step w fs r).checksumCalls = 0 ∧
    (step w fs r).errors =
      [logLine w.now ("Missing in Folder 2 - " ++ r.relativePath),
       logLine w.now ("Missing in Folder 1 - " ++ r.relativePath)] := by
  simp [step, stepCore, h]

/-- The copy phase never produces the status `Missing in Folder 1`. -/
theorem copyPhase_status_ne (w : World) (src dst : String) (sf : FsFile)
    (r2 : FileRecord) : (copyPhase w src dst sf r2).status ≠ "Missing in Folder 1" := by
  unfold copyPhase
  repeat' split
  all_goals simp [errorStatus_ne_missing1]

/-- The verification phase never produces the status `Missing in Folder 1`
when its input status is not that string. -/
theorem verifyPhase_status_ne (hash : List Nat → String) (a b : Option FsFile)
    (st3 : String) (h : st3 ≠ "Missing in Folder 1") :
    (verifyPhase hash a b st3).status ≠ "Missing in Folder 1" := by
  unfold verifyPhase
  repeat' split
  all_goals simp_all

/-- When the source file is present, the final status is never
`Missing in Folder 1`. -/
theorem step_status_present_ne (w : World) (fs : Fs) (r : FileRecord) (sf : FsFile)
    (h : fsGet fs r.sourcePath = some sf) :
    (step w fs r).status ≠ "Missing in Folder 1" := by
  simp only [step, stepCore, h, stepPresent]
  exact verifyPhase_status_ne _ _ _ _ (copyPhase_status_ne _ _ _ _ _)

/-! ## Concrete fixtures used by witnesses and counterexamples -/

/-- A concrete run environment whose copies always succeed. -/
def wEx : World :=
  { folder1 := "int", forceRecopy := false, now := "2025-06-01 00:00:00",
    copyFail := fun _ _ => none, hashHex := fun _ => "d" }

/-- A concrete run environment whose copies always fail with a permission
error. -/
def wFail : World :=
  { folder1 := "int", forceRecopy := false, now := "2025-06-01 00:00:00",
    copyFail := fun _ _ => some "Permission denied", hashHex := fun _ => "d" }

/-- A one-byte file. -/
def fA : FsFile := { sizeProbe := some 1, content := ReadResult.ok [1] }

/-- A two-byte file. -/
def fB : FsFile := { sizeProbe := some 2, content := ReadResult.ok [2, 3] }

/-- An unreadable file: the size probe raises and so does the read. -/
def fE : FsFile := { sizeProbe := none, content := ReadResult.ioError "Input/output error" }

/-- Disk for the three-record scenario: record `a` identical on both sides,
record `b` present only in the external tree, record `c` absent from it. -/
def fsC2 : Fs := [("int/a", fA), ("ext/a", fA), ("ext/b", fB)]

/-- The three-record inventory of the scenario: `a` already copied, `b`
never copied, `c` with a vanished source. -/
def recsC2 : List FileRecord :=
  [ { relativePath := "a", sourcePath := "ext/a", dateCopied := some "d0",
      existsInFolder1 := true, existsInFolder2 := true },
    { relativePath := "b", sourcePath := "ext/b", dateCopied := none,
      existsInFolder1 := false, existsInFolder2 := true },
    { relativePath := "c", sourcePath := "ext/c", dateCopied := none,
      existsInFolder1 := false, existsInFolder2 := true } ]

/-- A single record whose source file does not exist. -/
def recC1 : FileRecord :=
  { relativePath := "c", sourcePath := "ext/c", dateCopied := none,
    existsInFolder1 := false, existsInFolder2 := true }

/-! ## C9 -/

/-- C9: the status `Missing in Folder 1` is assigned to a row exactly when
the row's source file is absent from the external tree; in that case it
overwrites the `Missing in Folder 2` status set just before (both error
lines are logged) and the missing counter is incremented twice.  Conversely
a row whose source exists but whose destination is absent, with the copy
date set and force-recopy off, ends as `Already Copied` with no counter
changed. -/
theorem c9_missing_label_iff :
    (∀ (w : World) (fs : Fs) (r : FileRecord),
      ((step w fs r).status = "Missing in Folder 1" ↔ fsGet fs r.sourcePath = none)) ∧
    (∀ (w : World) (fs : Fs) (r : FileRecord), fsGet fs r.sourcePath = none →
      (step w fs r).dMissing = 2 ∧
      (step w fs r).errors =
        [logLine w.now ("Missing in Folder 2 - " ++ r.relativePath),
         logLine w.now ("Missing in Folder 1 - " ++ r.relativePath)]) ∧
    (∀ (w : World) (fs : Fs) (r : FileRecord) (sf : FsFile) (d : String),
      fsGet fs r.sourcePath = some sf → fsGet fs (dstPath w r) = none →
      r.dateCopied = some d → w.forceRecopy = false →
      (step w fs r).status = "Already Copied" ∧ (step w fs r).dCopied = 0 ∧
      (step w fs r).dVerified = 0 ∧ (step w fs r).dMismatched = 0 ∧
      (step w fs r).dMissing = 0) := by
  refine ⟨fun w fs r => ⟨fun hst => ?_, fun h => (step_missing_src w fs r h).1⟩,
    fun w fs r h => ⟨(step_missing_src w fs r h).2.1, (step_missing_src w fs r h).2.2.2.2.2.2.2⟩,
    fun w fs r sf d h1 h2 h3 h4 => ?_⟩
  · cases h : fsGet fs r.sourcePath with
    | none => rfl
    | some sf => exact absurd hst (step_status_present_ne w fs r sf h)
  · simp [step, stepCore, h1, stepPresent, copyPhase, verifyPhase, postSrcF, postDstF, h2, h3, h4]

/-- C9 witness: at a concrete record with a vanished source the counter is
incremented twice, and at a concrete already-copied record with an absent
destination the status is `Already Copied`. -/
theorem c9_missing_label_iff_witness :
    (step wEx [] recC1).dMissing = 2 ∧
    (step wEx [("ext/a", fA)]
      { relativePath := "a", sourcePath := "ext/a", dateCopied := some "d0",
        existsInFolder1 := true, existsInFolder2 := true }).status = "Already Copied" :=
  ⟨(c9_missing_label_iff.2.1 wEx [] recC1 (by decide)).1,
   (c9_missing_label_iff.2.2 wEx [("ext/a", fA)]
      { relativePath := "a", sourcePath := "ext/a", dateCopied := some "d0",
        existsInFolder1 := true, existsInFolder2 := true } fA "d0"
      (by decide) (by decide) (by decide) (by decide)).1⟩

/-! ## C10 -/

/-- C10: `compute_checksum` is total and renders every failure as the string
`ERROR: <message>` (missing file, unreadable file) and returns the digest
otherwise; consequently, when the source and destination both fail to read
with the same message, the two `ERROR:` strings compare equal, the record
counts as verified, and its status becomes `Verified` (for an
already-copied record) or stays `Copied` (for a record copied this pass). -/
theorem c10_checksum_error_semantics :
    (∀ (w : World) (fs : Fs) (p : String), fsGet fs p = none →
      compute_checksum w fs p = "ERROR: " ++ fileNotFoundMsg p) ∧
    (∀ (w : World) (fs : Fs) (p : String) (f : FsFile) (m : String),
      fsGet fs p = some f → f.content = ReadResult.ioError m →
      compute_checksum w fs p = "ERROR: " ++ m) ∧
    (∀ (w : World) (fs : Fs) (p : String) (f : FsFile) (bs : List Nat),
      fsGet fs p = some f → f.content = ReadResult.ok bs →
      compute_checksum w fs p = w.hashHex bs) ∧
    (∀ (w : World) (fs : Fs) (r : FileRecord) (sf df : FsFile) (d m : String),
      fsGet fs r.sourcePath = some sf → fsGet fs (dstPath w r) = some df →
      r.dateCopied = some d → sf.sizeProbe = df.sizeProbe →
      sf.content = ReadResult.ioError m → df.content = ReadResult.ioError m →
      (step w fs r).status = "Verified" ∧ (step w fs r).dVerified = 1 ∧
      (step w fs r).dMismatched = 0 ∧ (step w fs r).checksumCalls = 2) ∧
    (∀ (w : World) (fs : Fs) (r : FileRecord) (sf : FsFile) (m : String),
      fsGet fs r.sourcePath = some sf → fsGet fs (dstPath w r) = none →
      r.dateCopied = none → w.forceRecopy = false →
      w.copyFail r.sourcePath (dstPath w r) = none →
      sf.content = ReadResult.ioError m →
      (step w fs r).status = "Copied" ∧ (step w fs r).dVerified = 1) := by
  refine ⟨fun w fs p h => by simp [compute_checksum, h],
    fun w fs p f m h1 h2 => by simp [compute_checksum, checksumOfEntry, h1, h2],
    fun w fs p f bs h1 h2 => by simp [compute_checksum, checksumOfEntry, h1, h2],
    fun w fs r sf df d m h1 h2 h3 h4 h5 h6 => by
      simp [step, stepCore, h1, stepPresent, copyPhase, verifyPhase, postSrcF, postDstF,
        h2, h3, h4, h5, h6, sizeOfEntry, checksumOfEntry],
    fun w fs r sf m h1 h2 h3 h4 h5 h6 => ?_⟩
  have hne : dstPath w r ≠ r.sourcePath := by
    intro e
    rw [e, h1] at h2
    cases h2
  simp [step, stepCore, h1, stepPresent, copyPhase, verifyPhase, postSrcF, postDstF,
    h2, h3, h4, h5, h6, sizeOfEntry, checksumOfEntry, hne]

/-- C10 witness: with both files unreadable with the same message and the
record already copied, the concrete step verifies the record with status
`Verified`; and `compute_checksum` at a concrete unreadable file returns the
`ERROR:` string. -/
theorem c10_checksum_error_semantics_witness :
    compute_checksum wEx [("ext/e", fE)] "ext/e" = "ERROR: " ++ "Input/output error" ∧
    (step wEx [("ext/e", fE), ("int/e", fE)]
      { relativePath := "e", sourcePath := "ext/e", dateCopied := some "d0",
        existsInFolder1 := true, existsInFolder2 := true }).status = "Verified" :=
  ⟨c10_checksum_error_semantics.2.1 wEx [("ext/e", fE)] "ext/e" fE "Input/output error"
      (by decide) (by decide),
   (c10_checksum_error_semantics.2.2.2.1 wEx [("ext/e", fE), ("int/e", fE)]
      { relativePath := "e", sourcePath := "ext/e", dateCopied := some "d0",
        existsInFolder1 := true, existsInFolder2 := true } fE fE "d0" "Input/output error"
      (by decide) (by decide) (by decide) (by decide) (by decide) (by decide)).1⟩

/-- A copy either does not write the destination or writes exactly the
source's file there. -/
theorem copyPhase_newDst (w : World) (src dst : String) (sf : FsFile) (r2 : FileRecord) :
    (copyPhase w src dst sf r2).newDst = none ∨
    (copyPhase w src dst sf r2).newDst = some sf := by
  unfold copyPhase
  repeat' split
  all_goals simp

/-- Unfolding `step` when the source file is present. -/
theorem step_present_eq (w : World) (fs : Fs) (r : FileRecord) (sf : FsFile)
    (h : fsGet fs r.sourcePath = some sf) :
    step w fs r = stepPresent w r.sourcePath (dstPath w r)
      { r with existsInFolder1 := (fsGet fs (dstPath w r)).isSome, existsInFolder2 := true }
      sf (fsGet fs (dstPath w r)) := by
  simp [step, stepCore, h]

theorem stepPresent_newDst (w : World) (src dst : String) (r1 : FileRecord) (sf : FsFile)
    (dstF : Option FsFile) :
    (stepPresent w src dst r1 sf dstF).newDst = none ∨
    (stepPresent w src dst r1 sf dstF).newDst = some sf := by
  unfold stepPresent
  exact copyPhase_newDst w src dst sf _

/-- Checksums are computed in an iteration only when the sizes compared by
the verification phase are equal. -/
theorem stepPresent_checksum_sizes (w : World) (src dst : String) (r1 : FileRecord)
    (sf : FsFile) (dstF : Option FsFile)
    (hcc : 0 < (stepPresent w src dst r1 sf dstF).checksumCalls) :
    sizeOfEntry (postSrcF src dst sf (stepPresent w src dst r1 sf dstF).newDst) =
    sizeOfEntry (postDstF dstF (stepPresent w src dst r1 sf dstF).newDst) := by
  simp only [stepPresent] at hcc ⊢
  rcases copyPhase_newDst w src dst sf
      (if !dstF.isSome && w.forceRecopy then { r1 with dateCopied := none } else r1) with
    hnd | hnd <;>
    rw [hnd] at hcc ⊢
  · simp only [postSrcF, postDstF] at hcc ⊢
    cases dstF with
    | none => simp [verifyPhase] at hcc
    | some df =>
      simp only [verifyPhase] at hcc ⊢
      split at hcc
      · simp at hcc
      · next h => exact not_ne_iff.mp h
  · simp [postSrcF, postDstF]

/-- Filesystem-level version: when an iteration computed checksums, the two
sizes it compared (sizes of source and destination on the post-copy disk)
were equal. -/
theorem step_checksum_only_equal_sizes (w : World) (fs : Fs) (r : FileRecord)
    (hcc : 0 < (step w fs r).checksumCalls) :
    get_file_size (stepFs w fs r) r.sourcePath =
    get_file_size (stepFs w fs r) (dstPath w r) := by
  cases h : fsGet fs r.sourcePath with
  | none => simp [step, stepCore, h] at hcc
  | some sf =>
    rw [step_present_eq w fs r sf h] at hcc
    have hsz := stepPresent_checksum_sizes w r.sourcePath (dstPath w r)
      { r with existsInFolder1 := (fsGet fs (dstPath w r)).isSome, existsInFolder2 := true }
      sf (fsGet fs (dstPath w r)) hcc
    unfold stepFs
    rw [step_present_eq w fs r sf h]
    rcases stepPresent_newDst w r.sourcePath (dstPath w r)
        { r with existsInFolder1 := (fsGet fs (dstPath w r)).isSome, existsInFolder2 := true }
        sf (fsGet fs (dstPath w r)) with hnd | hnd <;>
      rw [hnd] at hsz ⊢
    · simpa [get_file_size, postSrcF, postDstF, h] using hsz
    · simp [get_file_size, fsGet_fsSet, h]

/-- Every row is processed: the run emits one audit row and one progress
call per inventory row, whatever the outcomes. -/
theorem runRecs_lengths (w : World) (total : Nat) :
    ∀ (recs : List FileRecord) (fs : Fs) (i : Nat),
      (runRecs w total fs i recs).audit.length = recs.length ∧
      (runRecs w total fs i recs).progress.length = recs.length
  | [], _, _ => ⟨rfl, rfl⟩
  | r :: rest, fs, i => by
    have ih := runRecs_lengths w total rest (stepFs w fs r) (i + 1)
    simp [runRecs, ih.1, ih.2]

/-- The progress trace of the loop, in closed form: one `(index + 1, total)`
pair per row, indices counting up from `i`. -/
theorem runRecs_progress (w : World) (total : Nat) :
    ∀ (recs : List FileRecord) (fs : Fs) (i : Nat),
      (runRecs w total fs i recs).progress =
        (List.range recs.length).map (fun j => (i + j + 1, total))
  | [], _, _ => rfl
  | r :: rest, fs, i => by
    have ih := runRecs_progress w total rest (stepFs w fs r) (i + 1)
    simp only [runRecs, ih, List.length_cons, List.range_succ_eq_map, List.map_cons,
      List.map_map]
    refine List.cons_eq_cons.mpr ⟨by simp, List.map_congr_left fun a _ => ?_⟩
    simp only [Function.comp_apply, Prod.mk.injEq]
    exact ⟨by omega, trivial⟩

/-! ## C3 -/

/-- Disk and row for the copy-failure counterexample: the destination
already exists with a different size, so after the failed copy the
verification phase still runs and overrides the error status. -/
def fsC3 : Fs := [("ext/x", fB), ("int/x", fA)]

/-- A never-copied row for the C3 and C4 scenarios. -/
def recC3 : FileRecord :=
  { relativePath := "x", sourcePath := "ext/x", dateCopied := none,
    existsInFolder1 := true, existsInFolder2 := true }

/-- C3 counterexample: a record whose source exists, whose copy date is
unset, and whose copy attempt fails, but whose destination file already
exists with a different size: the final status is `Size Mismatch` — not a
copy-error status — and the mismatched counter changes, so verification was
not skipped. -/
theorem c3_counterexample :
    (step wFail fsC3 recC3).status = "Size Mismatch" ∧
    (step wFail fsC3 recC3).dMismatched = 1 ∧
    (step wFail fsC3 recC3).status ≠ "Error copying: Permission denied" := by decide

/-- C3 (amended): when the copy of a never-copied record fails and the
destination file does not exist, the final status is the copy-error status
carrying the reason, exactly one error line is logged, no counter changes,
no checksum is computed; and — unconditionally — the run still processes
every remaining record, emitting one audit row and one progress call per
inventory row. -/
theorem c3_copy_failure_isolated :
    (∀ (w : World) (fs : Fs) (r : FileRecord) (sf : FsFile) (msg : String),
      fsGet fs r.sourcePath = some sf → r.dateCopied = none →
      w.copyFail r.sourcePath (dstPath w r) = some msg →
      fsGet fs (dstPath w r) = none →
      (step w fs r).status = "Error copying: " ++ msg ∧
      (step w fs r).errors =
        [logLine w.now ("Error copying: " ++ msg ++ " - " ++ r.relativePath)] ∧
      (step w fs r).dCopied = 0 ∧ (step w fs r).dVerified = 0 ∧
      (step w fs r).dMismatched = 0 ∧ (step w fs r).dMissing = 0 ∧
      (step w fs r).checksumCalls = 0) ∧
    (∀ (w : World) (total : Nat) (fs : Fs) (i : Nat) (recs : List FileRecord),
      (runRecs w total fs i recs).audit.length = recs.length ∧
      (runRecs w total fs i recs).progress.length = recs.length) := by
  refine ⟨fun w fs r sf msg h1 h2 h3 h4 => ?_,
    fun w total fs i recs => runRecs_lengths w total recs fs i⟩
  simp [step, stepCore, h1, stepPresent, copyPhase, verifyPhase, postSrcF, postDstF,
    h2, h3, h4]

/-- C3 witness: the amended statement at a concrete failing copy with no
pre-existing destination. -/
theorem c3_copy_failure_isolated_witness :
    (step wFail [("ext/x", fB)] recC3).status = "Error copying: Permission denied" ∧
    (runRecs wFail 1 [("ext/x", fB)] 0 [recC3]).audit.length = 1 :=
  ⟨(c3_copy_failure_isolated.1 wFail [("ext/x", fB)] recC3 fB "Permission denied"
      (by decide) (by decide) (by decide) (by decide)).1,
   (c3_copy_failure_isolated.2 wFail 1 [("ext/x", fB)] 0 [recC3]).1⟩

/-! ## C4 -/

/-- C4 counterexample: a record where both the source and the destination
exist and their sizes differ, but the copy date is unset: the copy runs
first, succeeds and overwrites the destination, so the status is `Copied`,
the mismatched counter does not change, and checksums are computed even
though the two files had different sizes at the start of the iteration. -/
theorem c4_counterexample :
    (step wEx fsC3 recC3).status = "Copied" ∧
    (step wEx fsC3 recC3).dMismatched = 0 ∧
    (step wEx fsC3 recC3).checksumCalls = 2 := by decide

/-- C4 (amended): for a record that is not copied this pass (its copy date
is set) with both files present and defined, differing sizes, the status is
`Size Mismatch`, the mismatched counter increments by one and no checksum is
computed; and in every iteration checksums are computed only when the sizes
compared (on the post-copy disk) are equal. -/
theorem c4_size_mismatch_shortcircuit :
    (∀ (w : World) (fs : Fs) (r : FileRecord) (sf df : FsFile) (d : String) (m n : Nat),
      fsGet fs r.sourcePath = some sf → fsGet fs (dstPath w r) = some df →
      r.dateCopied = some d → sf.sizeProbe = some m → df.sizeProbe = some n → m ≠ n →
      (step w fs r).status = "Size Mismatch" ∧ (step w fs r).dMismatched = 1 ∧
      (step w fs r).checksumCalls = 0 ∧ (step w fs r).dVerified = 0) ∧
    (∀ (w : World) (fs : Fs) (r : FileRecord),
      0 < (step w fs r).checksumCalls →
      get_file_size (stepFs w fs r) r.sourcePath =
      get_file_size (stepFs w fs r) (dstPath w r)) := by
  refine ⟨fun w fs r sf df d m n h1 h2 h3 h4 h5 h6 => ?_, step_checksum_only_equal_sizes⟩
  simp [step, stepCore, h1, stepPresent, copyPhase, verifyPhase, postSrcF, postDstF,
    sizeOfEntry, h2, h3, h4, h5, h6]

/-- C4 witness: the amended statement at a concrete already-copied record
with sizes 2 and 1, and the only-when-equal clause at a concrete verified
record. -/
theorem c4_size_mismatch_shortcircuit_witness :
    (step wEx fsC3
      { relativePath := "x", sourcePath := "ext/x", dateCopied := some "d0",
        existsInFolder1 := true, existsInFolder2 := true }).status = "Size Mismatch" ∧
    get_file_size (stepFs wEx [("ext/a", fA), ("int/a", fA)]
        { relativePath := "a", sourcePath := "ext/a", dateCopied := some "d0",
          existsInFolder1 := true, existsInFolder2 := true }) "ext/a" =
      get_file_size (stepFs wEx [("ext/a", fA), ("int/a", fA)]
        { relativePath := "a", sourcePath := "ext/a", dateCopied := some "d0",
          existsInFolder1 := true, existsInFolder2 := true }) "int/a" :=
  ⟨(c4_size_mismatch_shortcircuit.1 wEx fsC3
      { relativePath := "x", sourcePath := "ext/x", dateCopied := some "d0",
        existsInFolder1 := true, existsInFolder2 := true } fB fA "d0" 2 1
      (by decide) (by decide) (by decide) (by decide) (by decide) (by decide)).1,
   c4_size_mismatch_shortcircuit.2 wEx [("ext/a", fA), ("int/a", fA)]
      { relativePath := "a", sourcePath := "ext/a", dateCopied := some "d0",
        existsInFolder1 := true, existsInFolder2 := true } (by decide)⟩

/-! ## C6 -/

/-- C6: the run invokes the progress callback exactly once per inventory
row, in inventory order, with 1-based strictly increasing `current` from 1
to `total`, where `total` is the number of inventory rows — regardless of
the rows' outcomes: the whole trace equals the closed-form list
`[(1, n), (2, n), ..., (n, n)]`. -/
theorem c6_progress_trace (w : World) (fs : Fs) (reportMain : Option (List FileRecord))
    (walk : List (String × String)) :
    (sync_and_verify w fs reportMain walk).progress =
      (List.range (match reportMain with
        | some recs => recs
        | none => bootstrapRecords walk).length).map
        (fun j => (j + 1, (match reportMain with
          | some recs => recs
          | none => bootstrapRecords walk).length)) := by
  unfold sync_and_verify
  rw [runRecs_progress]
  simp

/-! ## C1 -/

/-- C1: evaluating the run at a one-record inventory whose source file is
absent shows the code disagreeing with the claim: no copy is attempted (the
disk is untouched, nothing is copied or checksummed), but the missing
counter ends at 2, not 1, and the final audited status is
`Missing in Folder 1`, not `Missing in Folder 2`: the trailing `else` of
lines 136-139 makes a second status decision for the record. -/
theorem c1_missing_external_bug :
    (sync_and_verify wEx [] (some [recC1]) []).missing = 2 ∧
    (sync_and_verify wEx [] (some [recC1]) []).audit.map (fun x => x.status) =
      ["Missing in Folder 1"] ∧
    (sync_and_verify wEx [] (some [recC1]) []).copied = 0 ∧
    (sync_and_verify wEx [] (some [recC1]) []).checksumCalls = 0 ∧
    (sync_and_verify wEx [] (some [recC1]) []).fs = [] := by decide

/-! ## C2 -/

/-- C2 counterexample: on the concrete three-record scenario inventory the
aggregate counters are not `copied = 1, verified = 1, mismatched = 0,
missing = 1` as claimed. -/
theorem c2_counterexample :
    ¬((sync_and_verify wEx fsC2 (some recsC2) []).copied = 1 ∧
      (sync_and_verify wEx fsC2 (some recsC2) []).verified = 1 ∧
      (sync_and_verify wEx fsC2 (some recsC2) []).mismatched = 0 ∧
      (sync_and_verify wEx fsC2 (some recsC2) []).missing = 1) := by decide

/-- C2 (amended): in the three-record scenario — (a) identical file on both
sides and already copied, (b) present only externally, never copied, copy
succeeding, (c) absent from the external tree — the counters are
`copied = 1, verified = 2, mismatched = 0, missing = 2` (the freshly copied
record is also verified, and the missing record is counted twice), with
statuses `Verified`, `Copied` and `Missing in Folder 1`. -/
theorem c2_three_record_scenario (w : World) (fs : Fs) (a b c : FileRecord)
    (f g : FsFile) (da : String)
    (hforce : w.forceRecopy = false)
    (ha1 : fsGet fs a.sourcePath = some f) (ha2 : fsGet fs (dstPath w a) = some f)
    (ha3 : a.dateCopied = some da)
    (hb1 : fsGet fs b.sourcePath = some g) (hb2 : fsGet fs (dstPath w b) = none)
    (hb3 : b.dateCopied = none) (hb4 : w.copyFail b.sourcePath (dstPath w b) = none)
    (hc1 : fsGet fs c.sourcePath = none) (hcb : c.sourcePath ≠ dstPath w b) :
    ((sync_and_verify w fs (some [a, b, c]) []).copied,
     (sync_and_verify w fs (some [a, b, c]) []).verified,
     (sync_and_verify w fs (some [a, b, c]) []).mismatched,
     (sync_and_verify w fs (some [a, b, c]) []).missing) = (1, 2, 0, 2) ∧
    (sync_and_verify w fs (some [a, b, c]) []).audit.map (fun x => x.status) =
      ["Verified", "Copied", "Missing in Folder 1"] := by
  simp [sync_and_verify, runRecs, step, stepCore, stepPresent, copyPhase, verifyPhase,
    postSrcF, postDstF, stepFs, fsGet_fsSet, ha1, ha2, ha3, hb1, hb2, hb3, hb4, hc1,
    hforce, Ne.symm hcb]

/-- C2 witness: the amended scenario at the concrete fixture inventory. -/
theorem c2_three_record_scenario_witness :
    ((sync_and_verify wEx fsC2 (some recsC2) []).copied,
     (sync_and_verify wEx fsC2 (some recsC2) []).verified,
     (sync_and_verify wEx fsC2 (some recsC2) []).mismatched,
     (sync_and_verify wEx fsC2 (some recsC2) []).missing) = (1, 2, 0, 2) :=
  (c2_three_record_scenario wEx fsC2
    { relativePath := "a", sourcePath := "ext/a", dateCopied := some "d0",
      existsInFolder1 := true, existsInFolder2 := true }
    { relativePath := "b", sourcePath := "ext/b", dateCopied := none,
      existsInFolder1 := false, existsInFolder2 := true }
    { relativePath := "c", sourcePath := "ext/c", dateCopied := none,
      existsInFolder1 := false, existsInFolder2 := true }
    fA fB "d0" (by decide) (by decide) (by decide) (by decide) (by decide) (by decide)
    (by decide) (by decide) (by decide) (by decide)).1

/-! ## C8 -/

/-- C8: on the saved primary table of the three-record run, the third record
carries the problem status `Missing in Folder 1` in the audit, yet no saved
row is highlighted: the highlighting pass reads
`row[max_column - 3]` — the `Date Copied to Folder 1` column, since the
primary table has no status column — and compares a date cell against the
four status strings, which never matches. -/
theorem c8_highlight_never_fires :
    (sync_and_verify wEx fsC2 (some recsC2) []).audit.map (fun x => x.status) =
      ["Verified", "Copied", "Missing in Folder 1"] ∧
    "Missing in Folder 1" ∈ problemStatuses ∧
    (sync_and_verify wEx fsC2 (some recsC2) []).records.map rowHighlighted =
      [false, false, false] := by decide

/-! ## Lemmas for the second-run analysis (C5) -/

/-- An iteration can change the disk only at the record's destination path. -/
theorem stepFs_outside (w : World) (fs : Fs) (r : FileRecord) (p : String)
    (hp : p ≠ dstPath w r) : fsGet (stepFs w fs r) p = fsGet fs p := by
  unfold stepFs
  rcases hnd : (step w fs r).newDst with _ | f
  · rfl
  · simp [fsGet_fsSet, Ne.symm hp]

/-- A run can change the disk only at the destination paths of its rows. -/
theorem runRecs_fs_outside (w : World) (t : Nat) :
    ∀ (recs : List FileRecord) (fs : Fs) (i : Nat) (p : String),
      (∀ r ∈ recs, p ≠ dstPath w r) →
      fsGet (runRecs w t fs i recs).fs p = fsGet fs p
  | [], _, _, _, _ => rfl
  | r :: rest, fs, i, p, hp => by
    have h1 : fsGet (stepFs w fs r) p = fsGet fs p :=
      stepFs_outside w fs r p (hp r (List.mem_cons_self r rest))
    have ih := runRecs_fs_outside w t rest (stepFs w fs r) (i + 1) p
      (fun r' h' => hp r' (List.mem_cons_of_mem _ h'))
    simp only [runRecs]
    exact ih.trans h1

/-- An iteration's outcome depends on the disk only through the two lookups
it performs. -/
theorem step_ext (w : World) (fs1 fs2 : Fs) (r : FileRecord)
    (h1 : fsGet fs1 r.sourcePath = fsGet fs2 r.sourcePath)
    (h2 : fsGet fs1 (dstPath w r) = fsGet fs2 (dstPath w r)) :
    step w fs1 r = step w fs2 r := by
  unfold step
  rw [h1, h2]

theorem step_row_dstPath (w : World) (fs : Fs) (r : FileRecord) :
    dstPath w (step w fs r).row = dstPath w r := by
  unfold dstPath
  rw [step_row_relativePath]

set_option maxHeartbeats 1000000 in
/-- Re-running an iteration immediately, on the disk and row it produced,
copies nothing, writes nothing, and reproduces the same four counter
increments: a successful copy left the date stamped and the destination in
place (so the record only verifies), a failed copy fails again, and a
missing source is still missing. -/
theorem step_idem (w : World) (fs : Fs) (r : FileRecord) :
    (step w (stepFs w fs r) (step w fs r).row).newDst = none ∧
    (step w (stepFs w fs r) (step w fs r).row).dCopied = 0 ∧
    (step w (stepFs w fs r) (step w fs r).row).dVerified = (step w fs r).dVerified ∧
    (step w (stepFs w fs r) (step w fs r).row).dMismatched = (step w fs r).dMismatched ∧
    (step w (stepFs w fs r) (step w fs r).row).dMissing = (step w fs r).dMissing := by
  cases h : fsGet fs r.sourcePath with
  | none => simp [step, stepCore, stepFs, h]
  | some sf =>
    by_cases hcl : (!(fsGet fs (dstPath w r)).isSome && w.forceRecopy) = true
    · have hdn : fsGet fs (dstPath w r) = none := by
        rcases hq : fsGet fs (dstPath w r) with _ | q
        · rfl
        · rw [hq] at hcl
          simp at hcl
      rw [hdn] at hcl
      simp only [Option.isSome_none, Bool.not_false, Bool.true_and] at hcl
      simp only [dstPath] at h hdn
      cases hcp : w.copyFail r.sourcePath (w.folder1 ++ "/" ++ r.relativePath) with
      | none =>
        simp [step, stepCore, stepPresent, copyPhase, verifyPhase, postSrcF, postDstF,
          stepFs, fsGet_fsSet, dstPath, h, hdn, hcp, hcl]
      | some msg =>
        simp [step, stepCore, stepPresent, copyPhase, verifyPhase, postSrcF, postDstF,
          stepFs, fsGet_fsSet, dstPath, h, hdn, hcp, hcl]
    · simp only [dstPath] at hcl h
      rcases hdt : r.dateCopied with _ | d
      · cases hcp : w.copyFail r.sourcePath (w.folder1 ++ "/" ++ r.relativePath) with
        | none =>
          simp [step, stepCore, stepPresent, copyPhase, verifyPhase, postSrcF, postDstF,
            stepFs, fsGet_fsSet, dstPath, h, hcp, hcl, hdt]
        | some msg =>
          rcases hdf : fsGet fs (w.folder1 ++ "/" ++ r.relativePath) with _ | df
          · simp [step, stepCore, stepPresent, copyPhase, verifyPhase, postSrcF, postDstF,
              stepFs, fsGet_fsSet, dstPath, h, hcp, hcl, hdt, hdf]
          · simp [step, stepCore, stepPresent, copyPhase, verifyPhase, postSrcF, postDstF,
              stepFs, fsGet_fsSet, dstPath, h, hcp, hcl, hdt, hdf]
      · rcases hdf : fsGet fs (w.folder1 ++ "/" ++ r.relativePath) with _ | df
        · rw [hdf] at hcl
          simp only [Option.isSome_none, Bool.not_false, Bool.true_and] at hcl
          simp [step, stepCore, stepPresent, copyPhase, verifyPhase, postSrcF, postDstF,
            stepFs, fsGet_fsSet, dstPath, h, hcl, hdt, hdf]
        · simp [step, stepCore, stepPresent, copyPhase, verifyPhase, postSrcF, postDstF,
            stepFs, fsGet_fsSet, dstPath, h, hcl, hdt, hdf]

/-- An iteration that wrote nothing leaves the disk unchanged. -/
theorem stepFs_of_newDst_none (w : World) (fs : Fs) (r : FileRecord)
    (h : (step w fs r).newDst = none) : stepFs w fs r = fs := by
  unfold stepFs
  rw [h]

/-- Running the loop a second time, on the disk and rows the first run
produced, copies nothing and reproduces the verified, mismatched and
missing tallies — provided the inventory's destination paths are pairwise
distinct and no source path lies at a destination path. -/
theorem runRecs_twice (w : World) (t t2 : Nat) :
    ∀ (recs : List FileRecord) (fs : Fs) (i i2 : Nat),
      (recs.map (fun r => dstPath w r)).Nodup →
      (∀ r1 ∈ recs, ∀ r2 ∈ recs, r1.sourcePath ≠ dstPath w r2) →
      (runRecs w t2 (runRecs w t fs i recs).fs i2 (runRecs w t fs i recs).records).copied = 0 ∧
      (runRecs w t2 (runRecs w t fs i recs).fs i2 (runRecs w t fs i recs).records).verified
        = (runRecs w t fs i recs).verified ∧
      (runRecs w t2 (runRecs w t fs i recs).fs i2 (runRecs w t fs i recs).records).mismatched
        = (runRecs w t fs i recs).mismatched ∧
      (runRecs w t2 (runRecs w t fs i recs).fs i2 (runRecs w t fs i recs).records).missing
        = (runRecs w t fs i recs).missing
  | [], fs, i, i2, _, _ => by simp [runRecs]
  | r :: rest, fs, i, i2, hnd, hsrc => by
    simp only [List.map_cons, List.nodup_cons] at hnd
    obtain ⟨hndr, hnd'⟩ := hnd
    have hsrc' : ∀ r1 ∈ rest, ∀ r2 ∈ rest, r1.sourcePath ≠ dstPath w r2 :=
      fun r1 h1 r2 h2 => hsrc r1 (List.mem_cons_of_mem _ h1) r2 (List.mem_cons_of_mem _ h2)
    have ih := runRecs_twice w t t2 rest (stepFs w fs r) (i + 1) (i2 + 1) hnd' hsrc'
    have hag1 : fsGet (runRecs w t (stepFs w fs r) (i + 1) rest).fs r.sourcePath
        = fsGet (stepFs w fs r) r.sourcePath :=
      runRecs_fs_outside w t rest (stepFs w fs r) (i + 1) r.sourcePath
        (fun r' h' => hsrc r (List.mem_cons_self r rest) r' (List.mem_cons_of_mem _ h'))
    have hag2 : fsGet (runRecs w t (stepFs w fs r) (i + 1) rest).fs (dstPath w r)
        = fsGet (stepFs w fs r) (dstPath w r) :=
      runRecs_fs_outside w t rest (stepFs w fs r) (i + 1) (dstPath w r)
        (fun r' h' heq => hndr (heq ▸ List.mem_map_of_mem _ h'))
    have hstep2 : step w (runRecs w t (stepFs w fs r) (i + 1) rest).fs (step w fs r).row
        = step w (stepFs w fs r) (step w fs r).row :=
      step_ext w _ _ (step w fs r).row
        (by rw [step_row_sourcePath]; exact hag1)
        (by rw [step_row_dstPath]; exact hag2)
    have hidem := step_idem w fs r
    have hnd2 : (step w (runRecs w t (stepFs w fs r) (i + 1) rest).fs (step w fs r).row).newDst
        = none := by rw [hstep2]; exact hidem.1
    have hfs2 : stepFs w (runRecs w t (stepFs w fs r) (i + 1) rest).fs (step w fs r).row
        = (runRecs w t (stepFs w fs r) (i + 1) rest).fs :=
      stepFs_of_newDst_none w _ _ hnd2
    simp only [runRecs]
    rw [hfs2, hstep2]
    rw [hidem.2.1, hidem.2.2.1, hidem.2.2.2.1, hidem.2.2.2.2, ih.1, ih.2.1, ih.2.2.1,
      ih.2.2.2]
    simp

/-! ## C5 -/

/-- C5: running `sync_and_verify` twice in succession — the second run on
the filesystem and the saved inventory the first run produced — yields the
same verified, mismatched and missing counters and `copied = 0`, provided
the inventory is well formed: destination paths pairwise distinct and no
source path lying at a destination path. -/
theorem c5_second_run_counters (w : World) (fs : Fs) (recs : List FileRecord)
    (hnd : (recs.map (fun r => dstPath w r)).Nodup)
    (hsrc : ∀ r1 ∈ recs, ∀ r2 ∈ recs, r1.sourcePath ≠ dstPath w r2) :
    (sync_and_verify w (sync_and_verify w fs (some recs) []).fs
      (some (sync_and_verify w fs (some recs) []).records) []).copied = 0 ∧
    (sync_and_verify w (sync_and_verify w fs (some recs) []).fs
      (some (sync_and_verify w fs (some recs) []).records) []).verified
      = (sync_and_verify w fs (some recs) []).verified ∧
    (sync_and_verify w (sync_and_verify w fs (some recs) []).fs
      (some (sync_and_verify w fs (some recs) []).records) []).mismatched
      = (sync_and_verify w fs (some recs) []).mismatched ∧
    (sync_and_verify w (sync_and_verify w fs (some recs) []).fs
      (some (sync_and_verify w fs (some recs) []).records) []).missing
      = (sync_and_verify w fs (some recs) []).missing := by
  unfold sync_and_verify
  exact runRecs_twice w recs.length
    ((runRecs w recs.length fs 0 recs).records).length recs fs 0 0 hnd hsrc

/-- C5 witness: the two-run statement at the concrete three-record fixture,
whose first run copies one file. -/
theorem c5_second_run_counters_witness :
    (sync_and_verify wEx (sync_and_verify wEx fsC2 (some recsC2) []).fs
      (some (sync_and_verify wEx fsC2 (some recsC2) []).records) []).copied = 0 ∧
    (sync_and_verify wEx (sync_and_verify wEx fsC2 (some recsC2) []).fs
      (some (sync_and_verify wEx fsC2 (some recsC2) []).records) []).verified
      = (sync_and_verify wEx fsC2 (some recsC2) []).verified :=
  ⟨(c5_second_run_counters wEx fsC2 recsC2 (by decide) (by decide)).1,
   (c5_second_run_counters wEx fsC2 recsC2 (by decide) (by decide)).2.1⟩

/-! ## Lemmas for the backup rotation (C7) -/

/-- In a list sorted newest-first with pairwise distinct modification times,
an entry lies among the first `k` exactly when fewer than `k` entries have a
strictly larger modification time. -/
theorem mem_take_sorted :
    ∀ (l : List (String × DirFile)) (k : Nat), List.Sorted newerFirst l →
      ((l.map (fun e => e.2.mtime)).Nodup) → ∀ (e : String × DirFile),
      (e ∈ l.take k ↔ e ∈ l ∧
        (l.filter (fun x => e.2.mtime < x.2.mtime)).length < k)
  | [], k, _, _, e => by simp
  | a :: tl, 0, _, _, e => by simp
  | a :: tl, k + 1, hs, hm, e => by
    have ha : ∀ x ∈ tl, x.2.mtime ≤ a.2.mtime := by
      intro x hx
      exact (List.pairwise_cons.mp hs).1 x hx
    have hs' : List.Sorted newerFirst tl := (List.pairwise_cons.mp hs).2
    simp only [List.map_cons, List.nodup_cons] at hm
    obtain ⟨hma, hm'⟩ := hm
    by_cases he : e = a
    · subst he
      have hf : tl.filter (fun x => e.2.mtime < x.2.mtime) = [] := by
        refine List.filter_eq_nil_iff.mpr fun x hx => ?_
        simpa using Nat.not_lt.mpr (ha x hx)
      simp [List.filter_cons, hf]
    · by_cases hetl : e ∈ tl
      · have hne : e.2.mtime ≠ a.2.mtime := by
          intro heq
          exact hma (heq ▸ List.mem_map_of_mem _ hetl)
        have hlt : e.2.mtime < a.2.mtime := Nat.lt_of_le_of_ne (ha e hetl) hne
        have ih := mem_take_sorted tl k hs' hm' e
        simp [List.filter_cons, hlt, he, hetl, ih, Nat.succ_lt_succ_iff]
      · constructor
        · intro hmem
          exact absurd (List.take_subset k tl (by simpa [he] using hmem)) hetl
        · intro hmem
          exact absurd (by simpa [he] using hmem.1) hetl

theorem dirGet_eq_none : ∀ (l : Dir) (n : String), (∀ e ∈ l, e.1 ≠ n) → dirGet l n = none
  | [], _, _ => rfl
  | (q, f) :: rest, n, h => by
    have hq : q ≠ n := h (q, f) (List.mem_cons_self _ _)
    simp only [dirGet, if_neg hq]
    exact dirGet_eq_none rest n fun e he => h e (List.mem_cons_of_mem _ he)

theorem dirGet_eq_some_of_mem :
    ∀ (l : Dir), (l.map (fun e => e.1)).Nodup →
      ∀ (n : String) (f : DirFile), (n, f) ∈ l → dirGet l n = some f
  | [], _, _, _, h => by cases h
  | (q, g) :: rest, hnd, n, f, h => by
    simp only [List.map_cons, List.nodup_cons] at hnd
    rcases List.mem_cons.mp h with heq | hrest
    · cases heq
      simp [dirGet]
    · have hq : q ≠ n := by
        intro he
        exact hnd.1 (he ▸ List.mem_map_of_mem _ hrest)
      simp only [dirGet, if_neg hq]
      exact dirGet_eq_some_of_mem rest hnd.2 n f hrest

theorem eq_of_fst_eq_of_mem (l : Dir) (hnd : (l.map (fun e => e.1)).Nodup)
    (x y : String × DirFile) (hx : x ∈ l) (hy : y ∈ l) (h : x.1 = y.1) : x = y :=
  List.inj_on_of_nodup_map hnd hx hy h


theorem cleanup_keeps (d1 : Dir) (rn : String) (k : Nat)
    (hnames : (d1.map (fun e => e.1)).Nodup) :
    (∀ e ∈ d1, isBackupName (replaceXlsx rn "") e.1 = false →
      e ∈ (cleanup_old_backups (fun _ => false) d1 rn k).1) ∧
    (∀ e ∈ (cleanup_old_backups (fun _ => false) d1 rn k).1, e ∈ d1) ∧
    (((d1.filter (fun e => isBackupName (replaceXlsx rn "") e.1)).map
        (fun e => e.2.mtime)).Nodup →
      ∀ e ∈ d1, isBackupName (replaceXlsx rn "") e.1 = true →
      (e ∈ (cleanup_old_backups (fun _ => false) d1 rn k).1 ↔
        ((d1.filter (fun e => isBackupName (replaceXlsx rn "") e.1)).filter
          (fun x => e.2.mtime < x.2.mtime)).length < k)) ∧
    (∀ (delFail : String → Bool),
      ∀ e ∈ (List.insertionSort newerFirst
        (d1.filter (fun e => isBackupName (replaceXlsx rn "") e.1))).drop k,
      delFail e.1 = true →
      e ∈ (cleanup_old_backups delFail d1 rn k).1 ∧
      ("Failed to delete old backup: " ++ e.1) ∈ (cleanup_old_backups delFail d1 rn k).2) := by
  set B := d1.filter (fun e => isBackupName (replaceXlsx rn "") e.1) with hB
  set S := List.insertionSort newerFirst B with hS
  have hBsub : ∀ x ∈ B, x ∈ d1 := fun x hx => List.mem_of_mem_filter (hB ▸ hx)
  have hperm : S.Perm B := List.perm_insertionSort newerFirst B
  have hsorted : List.Sorted newerFirst S := List.sorted_insertionSort newerFirst B
  have hsortsub : ∀ x ∈ S, x ∈ d1 := fun x hx => hBsub x (hperm.mem_iff.mp hx)
  have hdropsub : ∀ x ∈ S.drop k, x ∈ d1 := fun x hx => hsortsub x (List.drop_subset k _ hx)
  refine ⟨?_, ?_, ?_, ?_⟩
  · intro e he hef
    simp only [cleanup_old_backups, Bool.not_false, List.filter_true, ← hB, ← hS]
    refine List.mem_filter.mpr ⟨he, ?_⟩
    simp only [Bool.not_eq_true']
    rw [List.contains_eq_any_beq]
    simp only [List.any_eq_false, beq_iff_eq]
    intro x hx
    rcases List.mem_map.mp hx with ⟨y, hy, hy1⟩
    intro hxe
    have hyB : y ∈ B := hperm.mem_iff.mp (List.drop_subset k _ hy)
    have hypat : isBackupName (replaceXlsx rn "") y.1 = true := by
      have h0 := List.of_mem_filter (hB ▸ hyB)
      simpa using h0
    rw [hy1, ← hxe, hef] at hypat
    simp at hypat
  · intro e he
    simp only [cleanup_old_backups] at he
    exact List.mem_of_mem_filter he
  · intro hmt e he hep
    have heB : e ∈ B := by rw [hB]; exact List.mem_filter.mpr ⟨he, hep⟩
    have hsortmt : (S.map (fun e => e.2.mtime)).Nodup := ((hperm.map _).nodup_iff).mpr hmt
    have hsortnd : S.Nodup := hsortmt.of_map
    have htake := mem_take_sorted S k hsorted hsortmt e
    have hes : e ∈ S := hperm.mem_iff.mpr heB
    have hflen : (S.filter (fun x => e.2.mtime < x.2.mtime)).length =
        (B.filter (fun x => e.2.mtime < x.2.mtime)).length := (hperm.filter _).length_eq
    have hsplit := List.take_append_drop k S
    simp only [cleanup_old_backups, Bool.not_false, List.filter_true, ← hB, ← hS]
    rw [List.mem_filter]
    constructor
    · rintro ⟨-, hnc⟩
      rw [← hflen]
      refine (htake.mp ?_).2
      have hnotdrop : e ∉ S.drop k := by
        intro hd
        simp only [Bool.not_eq_true'] at hnc
        rw [List.contains_eq_any_beq] at hnc
        simp only [List.any_eq_false, beq_iff_eq] at hnc
        exact hnc e.1 (List.mem_map_of_mem _ hd) rfl
      rcases List.mem_append.mp (hsplit ▸ hes) with h | h
      · exact h
      · exact absurd h hnotdrop
    · intro hcount
      refine ⟨he, ?_⟩
      simp only [Bool.not_eq_true']
      rw [List.contains_eq_any_beq]
      simp only [List.any_eq_false, beq_iff_eq]
      intro x hx
      rcases List.mem_map.mp hx with ⟨y, hy, hy1⟩
      intro hxe
      have hye : y = e := eq_of_fst_eq_of_mem d1 hnames y e (hdropsub y hy) he
        (by rw [hy1, hxe])
      subst hye
      have hintake : y ∈ S.take k := htake.mpr ⟨hes, by rw [hflen]; exact hcount⟩
      have hnd2 : (S.take k ++ S.drop k).Nodup := by rw [hsplit]; exact hsortnd
      exact (List.disjoint_of_nodup_append hnd2) hintake hy
  · intro delFail e he hdf
    constructor
    · simp only [cleanup_old_backups, ← hB, ← hS]
      refine List.mem_filter.mpr ⟨hdropsub e he, ?_⟩
      simp only [Bool.not_eq_true']
      rw [List.contains_eq_any_beq]
      simp only [List.any_eq_false, beq_iff_eq]
      intro x hx
      rcases List.mem_map.mp hx with ⟨y, hy, hy1⟩
      intro hxe
      have hyfil := List.of_mem_filter hy
      have hydel : y ∈ S.drop k := List.mem_of_mem_filter hy
      have hye : y = e := eq_of_fst_eq_of_mem d1 hnames y e (hdropsub y hydel)
        (hdropsub e he) (by rw [hy1, hxe])
      subst hye
      rw [hdf] at hyfil
      cases hyfil
    · simp only [cleanup_old_backups, ← hB, ← hS]
      refine List.mem_map.mpr ⟨e, ?_, rfl⟩
      exact List.mem_filter.mpr ⟨he, hdf⟩

/-! ## C7 -/

/-- C7: when the report artifact exists at run start, `backup_excel` places
a byte-identical, metadata-preserving copy of it under the timestamped
backup name before any mutation of the artifact, and the pruning pass keeps
exactly the backups with fewer than 7 strictly newer pattern-matching
backups (the most recent ones by modification time), touching no other
file; a deletion failure leaves the file in place and is reported in the
log, not raised. -/
theorem c7_backup_rotation (dir : Dir) (rf : DirFile)
    (h1 : dirGet dir "missing_files_report.xlsx" = some rf)
    (h2 : ∀ e ∈ dir, e.1 ≠ "missing_files_report_backup_2025-06-01_00-00-00.xlsx")
    (h3 : (dir.map (fun e => e.1)).Nodup)
    (h4 : (((dir ++ [("missing_files_report_backup_2025-06-01_00-00-00.xlsx", rf)]).filter
        (fun e => isBackupName "missing_files_report" e.1)).map (fun e => e.2.mtime)).Nodup)
    (h5 : ∀ e ∈ dir, isBackupName "missing_files_report" e.1 = true →
      e.2.mtime < rf.mtime) :
    dirGet (backup_excel (fun _ => false) "2025-06-01_00-00-00" dir
      "missing_files_report.xlsx").1
      "missing_files_report_backup_2025-06-01_00-00-00.xlsx" = some rf ∧
    (∀ e ∈ dir ++ [("missing_files_report_backup_2025-06-01_00-00-00.xlsx", rf)],
      isBackupName "missing_files_report" e.1 = false →
      e ∈ (backup_excel (fun _ => false) "2025-06-01_00-00-00" dir
        "missing_files_report.xlsx").1) ∧
    (∀ e ∈ dir ++ [("missing_files_report_backup_2025-06-01_00-00-00.xlsx", rf)],
      isBackupName "missing_files_report" e.1 = true →
      (e ∈ (backup_excel (fun _ => false) "2025-06-01_00-00-00" dir
          "missing_files_report.xlsx").1 ↔
        (((dir ++ [("missing_files_report_backup_2025-06-01_00-00-00.xlsx", rf)]).filter
            (fun e => isBackupName "missing_files_report" e.1)).filter
          (fun x => e.2.mtime < x.2.mtime)).length < 7)) ∧
    (∀ (delFail : String → Bool),
      ∀ e ∈ (List.insertionSort newerFirst
        ((dir ++ [("missing_files_report_backup_2025-06-01_00-00-00.xlsx", rf)]).filter
          (fun e => isBackupName "missing_files_report" e.1))).drop 7,
      delFail e.1 = true →
      e ∈ (backup_excel delFail "2025-06-01_00-00-00" dir "missing_files_report.xlsx").1 ∧
      ("Failed to delete old backup: " ++ e.1) ∈
        (backup_excel delFail "2025-06-01_00-00-00" dir "missing_files_report.xlsx").2) := by
  have hgb : dirGet dir "missing_files_report_backup_2025-06-01_00-00-00.xlsx" = none :=
    dirGet_eq_none dir _ h2
  have hrepl : replaceXlsx "missing_files_report.xlsx"
      ("_backup_" ++ "2025-06-01_00-00-00" ++ ".xlsx")
      = "missing_files_report_backup_2025-06-01_00-00-00.xlsx" := by decide
  have hbase : replaceXlsx "missing_files_report.xlsx" "" = "missing_files_report" := by
    decide
  have hd1 : dirSet dir "missing_files_report_backup_2025-06-01_00-00-00.xlsx" rf
      = dir ++ [("missing_files_report_backup_2025-06-01_00-00-00.xlsx", rf)] := by
    unfold dirSet
    rw [hgb]
    simp
  have hbe : ∀ delFail : String → Bool,
      backup_excel delFail "2025-06-01_00-00-00" dir "missing_files_report.xlsx" =
      cleanup_old_backups delFail
        (dir ++ [("missing_files_report_backup_2025-06-01_00-00-00.xlsx", rf)])
        "missing_files_report.xlsx" 7 := by
    intro delFail
    simp only [backup_excel, h1]
    rw [hrepl, hd1]
  have d1names : ((dir ++ [("missing_files_report_backup_2025-06-01_00-00-00.xlsx",
      rf)]).map (fun e => e.1)).Nodup := by
    rw [List.map_append, List.nodup_append]
    refine ⟨h3, by simp, ?_⟩
    intro a ha hamem
    rcases List.mem_map.mp ha with ⟨e, he, he1⟩
    simp only [List.map_cons, List.map_nil, List.mem_singleton] at hamem
    exact h2 e he (by rw [he1, hamem])
  have ck := cleanup_keeps
    (dir ++ [("missing_files_report_backup_2025-06-01_00-00-00.xlsx", rf)])
    "missing_files_report.xlsx" 7 d1names
  rw [hbase] at ck
  refine ⟨?_, ?_, ?_, ?_⟩
  · have hin : ("missing_files_report_backup_2025-06-01_00-00-00.xlsx", rf)
        ∈ dir ++ [("missing_files_report_backup_2025-06-01_00-00-00.xlsx", rf)] := by
      simp
    have hpat : isBackupName "missing_files_report"
        "missing_files_report_backup_2025-06-01_00-00-00.xlsx" = true := by decide
    have hfe : (((dir ++ [("missing_files_report_backup_2025-06-01_00-00-00.xlsx",
        rf)]).filter (fun e => isBackupName "missing_files_report" e.1)).filter
        (fun x => rf.mtime < x.2.mtime)) = [] := by
      refine List.filter_eq_nil_iff.mpr fun x hx => ?_
      have hx1 := List.mem_of_mem_filter hx
      have hxp : isBackupName "missing_files_report" x.1 = true := by
        have h0 := List.of_mem_filter hx
        simpa using h0
      rcases List.mem_append.mp hx1 with hxd | hxb
      · simpa using Nat.lt_asymm (h5 x hxd hxp)
      · simp only [List.mem_singleton] at hxb
        subst hxb
        simp
    have hmem := (ck.2.2.1 h4
      ("missing_files_report_backup_2025-06-01_00-00-00.xlsx", rf) hin hpat).mpr
      (by rw [hfe]; simp)
    rw [hbe]
    have hsub : (cleanup_old_backups (fun _ => false)
        (dir ++ [("missing_files_report_backup_2025-06-01_00-00-00.xlsx", rf)])
        "missing_files_report.xlsx" 7).1.Sublist
        (dir ++ [("missing_files_report_backup_2025-06-01_00-00-00.xlsx", rf)]) := by
      simp only [cleanup_old_backups]
      exact List.filter_sublist _
    have hnames2 : ((cleanup_old_backups (fun _ => false)
        (dir ++ [("missing_files_report_backup_2025-06-01_00-00-00.xlsx", rf)])
        "missing_files_report.xlsx" 7).1.map (fun e => e.1)).Nodup :=
      d1names.sublist (hsub.map _)
    exact dirGet_eq_some_of_mem _ hnames2 _ _ hmem
  · intro e he hef
    rw [hbe]
    exact ck.1 e he hef
  · intro e he hep
    rw [hbe]
    exact ck.2.2.1 h4 e he hep
  · intro delFail e he hdf
    rw [hbe]
    exact ck.2.2.2 delFail e he hdf

/-- The report file of the backup-rotation witness. -/
def rfW : DirFile := { mtime := 100, bytes := [7] }

/-- A report directory with eight old backups (all older than the report)
and one unrelated file. -/
def dirW : Dir :=
  [("missing_files_report.xlsx", rfW),
   ("missing_files_report_backup_t1.xlsx", { mtime := 1, bytes := [1] }),
   ("missing_files_report_backup_t2.xlsx", { mtime := 2, bytes := [2] }),
   ("missing_files_report_backup_t3.xlsx", { mtime := 3, bytes := [3] }),
   ("missing_files_report_backup_t4.xlsx", { mtime := 4, bytes := [4] }),
   ("missing_files_report_backup_t5.xlsx", { mtime := 5, bytes := [5] }),
   ("missing_files_report_backup_t6.xlsx", { mtime := 6, bytes := [6] }),
   ("missing_files_report_backup_t7.xlsx", { mtime := 7, bytes := [7] }),
   ("missing_files_report_backup_t8.xlsx", { mtime := 8, bytes := [8] }),
   ("other.txt", { mtime := 50, bytes := [9] })]

/-- C7 witness: at the concrete directory the fresh timestamped backup is a
byte-identical copy of the report and survives the prune. -/
theorem c7_backup_rotation_witness :
    dirGet (backup_excel (fun _ => false) "2025-06-01_00-00-00" dirW
      "missing_files_report.xlsx").1
      "missing_files_report_backup_2025-06-01_00-00-00.xlsx" = some rfW :=
  (c7_backup_rotation dirW rfW (by decide) (by decide) (by decide) (by decide)
    (by decide)).1
